import Mathlib

/-!
Verification development for the worm digging/combat game.

The definitions below are a shallow embedding of the game's simulation core
(src/terrain.py, src/worm.py, src/explosion.py, src/dynamite.py together with
the constants of src/config.py).  Python ints are modelled as `Int`/`Nat`,
Python floats (positions, velocities, timers) as `Rat`, Python `//` floor
division as `Int.fdiv` or `Int.floor` of a rational quotient, and mutation as
explicit state passing.  Where a Python expression mixes float constants with
integer data (`int(gas * 0.2 + 0.5)`, `int(SCREEN_HEIGHT * 0.15)`), the exact
integer formula used here was checked to agree with IEEE double evaluation on
the whole range the game can produce.
-/

/-! ## Constants from src/config.py -/

def SCREEN_WIDTH : ℤ := 1920

def SCREEN_HEIGHT : ℤ := 1080

def TILE_SIZE : ℤ := 8

/-- Models `UI_HEIGHT = int(SCREEN_HEIGHT * 0.15)`; the double product is exactly 162.0. -/
def UI_HEIGHT : ℤ := 162

def WORM_RADIUS : ℤ := 12

def GRAVITY : ℤ := 400

def DRILL_WIDTH : ℤ := WORM_RADIUS * 3

def DRILL_DEPTH : ℤ := 40

def DYNAMITE_RADIUS : ℤ := 96

def DYNAMITE_COUNT_START : ℤ := 10

def DYNAMITE_FUSE_TIME : ℚ := 2

def DYNAMITE_BASE_DAMAGE : ℤ := 70

def EXPLOSION_MIN_DAMAGE : ℤ := 10

def RESPAWN_TIME : ℚ := 2

def SPAWN_PROTECTION_TIME : ℚ := 2

def STARTING_GAS : ℤ := 100

def MAX_GAS : ℤ := 200

/-! ## Terrain data model (src/terrain.py) -/

/-- The four cell materials of `TerrainType`. -/
inductive Mat where
  | empty
  | dirt
  | rock
  | metal
deriving DecidableEq, Repr, Fintype

/-- The two collectible kinds of `ItemType`. -/
inductive Item where
  | gasBottle
  | dynamiteStick
deriving DecidableEq, Repr

/-- The four `tool_type` strings accepted by `Terrain.dig` / `Terrain._can_dig`. -/
inductive Tool where
  | drill
  | dynamite
  | laser
  | torch
deriving DecidableEq, Repr, Fintype

/-- The `Terrain` object: `tiles[y][x]` becomes `tiles y x`; the sparse
`items` dict keyed by `(x, y)` tile coordinates becomes a partial map;
`terrain_dirty` is the render-cache flag.  The pre-rendered surface is
render-only state and is not modelled. -/
structure Terrain where
  width : ℕ
  height : ℕ
  tiles : ℕ → ℕ → Mat
  items : ℤ × ℤ → Option Item
  terrain_dirty : Bool

/-- The method `Terrain._can_dig`: material/tool diggability table from src/terrain.py. -/
def Terrain.can_dig (terrain_type : Mat) (tool_type : Tool) : Bool :=
  if terrain_type = Mat.empty then false
  else
    match tool_type with
    | Tool.drill => decide (terrain_type = Mat.dirt ∨ terrain_type = Mat.rock)
    | Tool.dynamite =>
        decide (terrain_type = Mat.dirt ∨ terrain_type = Mat.rock ∨ terrain_type = Mat.metal)
    | Tool.laser => decide (terrain_type = Mat.rock ∨ terrain_type = Mat.metal)
    | Tool.torch => decide (terrain_type = Mat.dirt ∨ terrain_type = Mat.rock)

/-- The assignment `self.tiles[ty][tx] = m`, leaving every other cell and all other fields alone. -/
def Terrain.set_tile (t : Terrain) (ty tx : ℕ) (m : Mat) : Terrain :=
  { t with tiles := fun y x => if y = ty ∧ x = tx then m else t.tiles y x }

/-- One iteration of the common inner loop of every branch of `Terrain.dig`:
given a candidate cell `(tx, ty)`, if it is inside the grid and the current
material is diggable by the tool, the cell is cleared to `EMPTY`. -/
def Terrain.digCell (tool_type : Tool) (t : Terrain) (c : ℤ × ℤ) : Terrain :=
  if 0 ≤ c.1 ∧ c.1 < (t.width : ℤ) ∧ 0 ≤ c.2 ∧ c.2 < (t.height : ℤ) then
    if Terrain.can_dig (t.tiles c.2.toNat c.1.toNat) tool_type then
      t.set_tile c.2.toNat c.1.toNat Mat.empty
    else t
  else t

/-- The cell loop of a `Terrain.dig` branch, run over the branch's footprint
list in iteration order. -/
def Terrain.digList (tool_type : Tool) (cells : List (ℤ × ℤ)) (t : Terrain) : Terrain :=
  cells.foldl (Terrain.digCell tool_type) t

/-- Python `range(a, b)` over integers. -/
def rangeZ (a b : ℤ) : List ℤ :=
  (List.range (b - a).toNat).map fun i => a + (i : ℤ)

/-- Footprint of the `"drill"` branch of `Terrain.dig`: a
`drill_width_tiles`-derived span of columns centered on the target column,
swept over `drill_depth_tiles` rows starting at the target row. -/
def Terrain.drillCells (tile_x tile_y : ℤ) : List (ℤ × ℤ) :=
  let drill_width_tiles : ℤ := max 1 (DRILL_WIDTH.fdiv TILE_SIZE)
  let drill_depth_tiles : ℤ := max 1 (DRILL_DEPTH.fdiv TILE_SIZE)
  let start_x := tile_x - drill_width_tiles.fdiv 2
  let end_x := tile_x + drill_width_tiles.fdiv 2
  (rangeZ 0 drill_depth_tiles).flatMap fun dy =>
    (rangeZ start_x (end_x + 1)).map fun tx => (tx, tile_y + dy)

/-- Footprint of the default circular branch of `Terrain.dig` (used for
`"dynamite"`, `"laser"` and any other tool string): the discretized disc
`dx*dx + dy*dy ≤ tile_radius^2` around the target cell. -/
def Terrain.circleCells (tile_x tile_y : ℤ) (radius : ℚ) : List (ℤ × ℤ) :=
  let tile_radius : ℤ := max 1 ⌊radius / (TILE_SIZE : ℚ)⌋
  (rangeZ (-tile_radius) (tile_radius + 1)).flatMap fun dy =>
    (rangeZ (-tile_radius) (tile_radius + 1)).filterMap fun dx =>
      if dx * dx + dy * dy ≤ tile_radius * tile_radius then
        some (tile_x + dx, tile_y + dy)
      else none

/-- Footprint of the `"torch"` branch of `Terrain.dig`.  The branch steps a
distance `1 .. cone_length` along the aim direction and clears a disc at each
step.  The floating-point trigonometry of the source
(`int(distance * cos(direction_angle))`, `int(distance * sin(direction_angle))`
and `int(distance * tan(cone_angle / 2))`) is abstracted by the integer-valued
parameters `centerOff` (per-distance center offset) and `coneWidth`
(per-distance disc radius); the loop structure is otherwise unchanged. -/
def Terrain.torchCells (tile_x tile_y : ℤ) (radius : ℚ)
    (centerOff : ℕ → ℤ × ℤ) (coneWidth : ℕ → ℕ) : List (ℤ × ℤ) :=
  let cone_length : ℤ := ⌊radius / (TILE_SIZE : ℚ)⌋
  (rangeZ 1 (cone_length + 1)).flatMap fun distance =>
    let cw : ℤ := (coneWidth distance.toNat : ℤ)
    let center_x := tile_x + (centerOff distance.toNat).1
    let center_y := tile_y + (centerOff distance.toNat).2
    (rangeZ (-cw) (cw + 1)).flatMap fun dy =>
      (rangeZ (-cw) (cw + 1)).filterMap fun dx =>
        if dx * dx + dy * dy ≤ cw * cw then some (center_x + dx, center_y + dy) else none

/-- The method `Terrain.dig(x, y, radius, tool_type, direction_angle)`: converts the
pixel-space center to a tile coordinate (subtracting the UI offset from `y`),
clears the tool-specific footprint subject to `_can_dig`, and marks the
render cache dirty.  `centerOff`/`coneWidth` carry the torch branch's
floating-point direction data (see `Terrain.torchCells`); the other branches
ignore them. -/
def Terrain.dig (t : Terrain) (x y radius : ℚ) (tool_type : Tool)
    (centerOff : ℕ → ℤ × ℤ) (coneWidth : ℕ → ℕ) : Terrain :=
  let tile_x : ℤ := ⌊x / (TILE_SIZE : ℚ)⌋
  let tile_y : ℤ := ⌊(y - (UI_HEIGHT : ℚ)) / (TILE_SIZE : ℚ)⌋
  let t2 :=
    match tool_type with
    | Tool.drill => Terrain.digList Tool.drill (Terrain.drillCells tile_x tile_y) t
    | Tool.torch =>
        Terrain.digList Tool.torch
          (Terrain.torchCells tile_x tile_y radius centerOff coneWidth) t
    | tt => Terrain.digList tt (Terrain.circleCells tile_x tile_y radius) t
  { t2 with terrain_dirty := true }

/-- The method `Terrain.get_tile(x, y)`: pixel coordinates to grid material, with the
boundary conventions of the source (below-bottom rows read `EMPTY`, every
other out-of-grid cell reads `METAL`). -/
def Terrain.get_tile (t : Terrain) (x y : ℚ) : Mat :=
  let adjusted_y := y - (UI_HEIGHT : ℚ)
  let tile_x : ℤ := ⌊x / (TILE_SIZE : ℚ)⌋
  let tile_y : ℤ := ⌊adjusted_y / (TILE_SIZE : ℚ)⌋
  if 0 ≤ tile_x ∧ tile_x < (t.width : ℤ) ∧ 0 ≤ tile_y ∧ tile_y < (t.height : ℤ) then
    t.tiles tile_y.toNat tile_x.toNat
  else if (t.height : ℤ) ≤ tile_y then Mat.empty
  else Mat.metal

/-- The method `Terrain.is_solid(x, y)`. -/
def Terrain.is_solid (t : Terrain) (x y : ℚ) : Bool :=
  decide (t.get_tile x y ≠ Mat.empty)

/-! ## Worm data model (src/worm.py) -/

/-- Kill attribution cases of `Worm.die(killer_worm)`: `killer_worm is None`,
`killer_worm == self`, or another worm (whose own kill counter is incremented
on that other object and is therefore outside this worm's state). -/
inductive KillerKind where
  | noKiller
  | selfKiller
  | otherKiller
deriving DecidableEq, Repr

/-- Result of `Worm.take_damage`: Python `False` (survived / no effect) or the
`{'needs_death_handling': True, 'killer': source}` dict. -/
inductive DamageResult where
  | noEffect
  | needsDeathHandling (killer : Option ℕ)
deriving DecidableEq, Repr

/-- The tombstone dict built by `Worm.die` and handed to the game. -/
structure TombstoneData where
  x : ℚ
  y : ℚ
  gas : ℤ
  dynamite : ℤ
  deceased_name : String
deriving DecidableEq, Repr

/-- The `Worm` state touched by the claims under verification: position and
velocity, health, resource pools, lifecycle flags/timers, death statistics and
the head position `body_segments[0]` used as the combat reference point.
Input, aim, rendering and sound state of the source class is not referenced by
any verified operation and is omitted. -/
structure Worm where
  x : ℚ
  y : ℚ
  vel_x : ℚ
  vel_y : ℚ
  max_hp : ℤ
  hp : ℤ
  on_ground : Bool
  can_jump : Bool
  gas : ℤ
  dynamite_count : ℤ
  name : String
  is_dead : Bool
  is_respawning : Bool
  spawn_protection : ℚ
  kills : ℤ
  deaths : ℤ
  fall_deaths : ℤ
  self_deaths : ℤ
  respawn_timer : ℚ
  respawn_color_timer : ℚ
  death_position : Option (ℚ × ℚ)
  body_head : ℚ × ℚ
deriving DecidableEq

/-- The constructor `Worm.__init__(x, y)` restricted to the modelled fields. -/
def mkWorm (x y : ℚ) : Worm where
  x := x
  y := y
  vel_x := 0
  vel_y := 0
  max_hp := 100
  hp := 100
  on_ground := false
  can_jump := true
  gas := STARTING_GAS
  dynamite_count := DYNAMITE_COUNT_START
  name := "Player"
  is_dead := false
  is_respawning := false
  spawn_protection := 0
  kills := 0
  deaths := 0
  fall_deaths := 0
  self_deaths := 0
  respawn_timer := 0
  respawn_color_timer := 0
  death_position := none
  body_head := (x, y)

/-- The method `Worm.take_damage(damage, source)`: no-op while dead, respawning or under
spawn protection; otherwise clamps health at 0 and reports whether the game
must run death handling. -/
def Worm.take_damage (w : Worm) (damage : ℤ) (source : Option ℕ) : Worm × DamageResult :=
  if w.is_dead = true ∨ w.is_respawning = true ∨ 0 < w.spawn_protection then
    (w, DamageResult.noEffect)
  else
    let w2 := { w with hp := max 0 (w.hp - damage) }
    if w2.hp ≤ 0 ∧ w2.is_dead = false ∧ w2.is_respawning = false then
      (w2, DamageResult.needsDeathHandling source)
    else
      (w2, DamageResult.noEffect)

/-- Models `int(g * TOMBSTONE_RESOURCE_PERCENTAGE + 0.5)` with
`TOMBSTONE_RESOURCE_PERCENTAGE = 0.2`: for every `0 ≤ g ≤ MAX_GAS` (indeed for
every game-reachable pool value) the IEEE double expression equals the exact
integer `(2 * g + 5) / 10` (Euclidean division; checked exhaustively). -/
def tombstoneShare (g : ℤ) : ℤ :=
  (2 * g + 5) / 10

/-- The method `Worm.die(killer_worm, new_x, new_y)`: switches to the respawning state,
updates the death statistics, carves a tombstone share out of the gas and
dynamite pools, optionally relocates the worm, and returns the tombstone data
for the game.  Returns the worm unchanged with no tombstone when already dead
or respawning. -/
def Worm.die (w : Worm) (killer : KillerKind) (new_pos : Option (ℚ × ℚ)) :
    Worm × Option TombstoneData :=
  if w.is_dead = true ∨ w.is_respawning = true then
    (w, none)
  else
    let w1 := { w with
      is_dead := false
      is_respawning := true
      deaths := w.deaths + 1
      respawn_timer := RESPAWN_TIME
      respawn_color_timer := 0
      death_position := some (w.x, w.y) }
    let w2 :=
      match killer with
      | KillerKind.noKiller => { w1 with fall_deaths := w1.fall_deaths + 1 }
      | KillerKind.selfKiller => { w1 with self_deaths := w1.self_deaths + 1 }
      | KillerKind.otherKiller => w1
    let tombstone_gas : ℤ := max 1 (tombstoneShare w.gas)
    let tombstone_dynamite : ℤ := max 0 (tombstoneShare w.dynamite_count)
    let td : TombstoneData :=
      { x := w.x, y := w.y, gas := tombstone_gas, dynamite := tombstone_dynamite
        deceased_name := w.name }
    let w3 := { w2 with
      gas := max 0 (w2.gas - tombstone_gas)
      dynamite_count := max 0 (w2.dynamite_count - tombstone_dynamite) }
    let w4 :=
      match new_pos with
      | some p =>
          { w3 with x := p.1, y := p.2, vel_x := 0, vel_y := 0
                    on_ground := false, can_jump := false }
      | none => w3
    (w4, some td)

/-- The method `Worm.respawn(x, y)`: completes the respawn, restoring full health,
starting resources and spawn protection; no-op unless currently respawning. -/
def Worm.respawn (w : Worm) (pos : Option (ℚ × ℚ)) : Worm × Bool :=
  if w.is_respawning = false then
    (w, false)
  else
    let w1 := { w with
      is_respawning := false
      is_dead := false
      hp := w.max_hp
      spawn_protection := SPAWN_PROTECTION_TIME
      respawn_timer := 0
      respawn_color_timer := 0
      gas := STARTING_GAS
      dynamite_count := DYNAMITE_COUNT_START }
    let w2 :=
      match pos with
      | some p => { w1 with x := p.1, y := p.2, body_head := p }
      | none => w1
    (w2, true)

/-- The world-bounds step at the end of `Worm.update` (src/worm.py lines
1045-1066): clamp `x` to the horizontal screen bounds, wrap a worm that fell
below the bottom of the world back to the band just below the UI with zeroed
horizontal velocity and a gentle downward vertical velocity, and push a worm
that escaped above the top back to the same band. -/
def Worm.update_bounds (w : Worm) : Worm :=
  let w1 := { w with x := max (WORM_RADIUS : ℚ) (min ((SCREEN_WIDTH : ℚ) - (WORM_RADIUS : ℚ)) w.x) }
  let w2 :=
    if (SCREEN_HEIGHT : ℚ) + (WORM_RADIUS : ℚ) < w1.y then
      { w1 with
        x := max (WORM_RADIUS : ℚ) (min ((SCREEN_WIDTH : ℚ) - (WORM_RADIUS : ℚ)) w1.x)
        y := (UI_HEIGHT : ℚ) + 50
        vel_y := 50
        vel_x := 0
        on_ground := false
        can_jump := false }
    else w1
  if w2.y < -50 then
    { w2 with y := (UI_HEIGHT : ℚ) + 50, vel_y := max 0 w2.vel_y }
  else w2

/-! ## Explosion damage (src/explosion.py) -/

/-- The damage-relevant state of an `Explosion`. Animation state (particles,
timers, current radius) has no gameplay effect and is omitted. -/
structure Explosion where
  x : ℚ
  y : ℚ
  radius : ℚ
  base_damage : ℤ
  source_worm : Option ℕ
deriving DecidableEq

/-- Squared Euclidean distance from the explosion center to a worm's head
position `body_segments[0]`. -/
def Explosion.dist2 (e : Explosion) (w : Worm) : ℚ :=
  (w.body_head.1 - e.x) ^ 2 + (w.body_head.2 - e.y) ^ 2

/-- Models `int(math.sqrt(q))` for `q ≥ 0`: the floor of the real square root
(`⌊√q⌋ = Nat.sqrt ⌊q⌋` for `q ≥ 0`, exact at game magnitudes). -/
def floorSqrt (q : ℚ) : ℕ :=
  Nat.sqrt ⌊q⌋.toNat

/-- The per-worm body of the `Explosion.apply_damage` loop: a dead worm is
skipped; a worm within `radius` of the center (the source compares
`math.sqrt(dist2) ≤ radius`, encoded here as `dist2 ≤ radius^2`, equivalent
for the game's nonnegative radii) is dealt
`max(EXPLOSION_MIN_DAMAGE, base_damage - int(distance))` through
`take_damage`; any other worm is untouched.  Returns the updated worm and the
damage amount recorded in the `damaged_worms` list, if any. -/
def Explosion.apply_damage_one (e : Explosion) (w : Worm) : Worm × Option ℤ :=
  if w.is_dead = true then (w, none)
  else if e.dist2 w ≤ e.radius ^ 2 then
    let damage : ℤ := max EXPLOSION_MIN_DAMAGE (e.base_damage - (floorSqrt (e.dist2 w) : ℤ))
    ((w.take_damage damage e.source_worm).1, some damage)
  else (w, none)

/-- The method `Explosion.apply_damage(worms)`: the in-place update of every worm in the
list, and the `damaged_worms` entries (worm after the hit, damage dealt). -/
def Explosion.apply_damage (e : Explosion) (ws : List Worm) : List Worm × List (Worm × ℤ) :=
  (ws.map fun w => (e.apply_damage_one w).1,
   ws.filterMap fun w =>
     match e.apply_damage_one w with
     | (w2, some d) => some (w2, d)
     | (_, none) => none)

/-! ## Thrown dynamite (src/dynamite.py) -/

/-- The simulation state of a `ThrownDynamite`.  `__init__` sets
`has_exploded = False`; the start position and the sound machinery are not
referenced by `update`'s contract and are omitted. -/
structure ThrownDynamite where
  x : ℚ
  y : ℚ
  vel_x : ℚ
  vel_y : ℚ
  has_exploded : Bool
deriving DecidableEq, Repr

/-- The ballistic-movement phase of `ThrownDynamite.update`: before the fuse
expires the charge flies under gravity, stopping dead (velocity zeroed,
position kept) against solid terrain. -/
def ThrownDynamite.phys (d : ThrownDynamite) (elapsed dt : ℚ) (terrain : Terrain) :
    ThrownDynamite :=
  if d.has_exploded = false ∧ elapsed < DYNAMITE_FUSE_TIME then
    let new_x := d.x + d.vel_x * dt
    let new_y := d.y + d.vel_y * dt
    if terrain.is_solid new_x new_y then
      { d with vel_x := 0, vel_y := 0 }
    else
      { d with x := new_x, y := new_y, vel_y := d.vel_y + (GRAVITY : ℚ) * dt }
  else d

/-- The method `ThrownDynamite.update(dt, terrain)` with `elapsed = time.time() -
self.start_time` passed explicitly: the movement phase above, then the
timer-based explosion check — on the first call with
`elapsed ≥ DYNAMITE_FUSE_TIME` it sets `has_exploded` and signals the
explosion (`True`) exactly once. -/
def ThrownDynamite.update (d : ThrownDynamite) (elapsed dt : ℚ) (terrain : Terrain) :
    ThrownDynamite × Bool :=
  let d1 := d.phys elapsed dt terrain
  if DYNAMITE_FUSE_TIME ≤ elapsed ∧ d1.has_exploded = false then
    ({ d1 with has_exploded := true }, true)
  else
    (d1, false)

/-- The state of a thrown charge after `n` calls of `update`, where tick `i`
runs with elapsed time `e i`, time step `dts i` and terrain `tr i`. -/
def ThrownDynamite.run (e dts : ℕ → ℚ) (tr : ℕ → Terrain) (d0 : ThrownDynamite) :
    ℕ → ThrownDynamite
  | 0 => d0
  | n + 1 => ((ThrownDynamite.run e dts tr d0 n).update (e n) (dts n) (tr n)).1

/-- Whether tick `n` signals the explosion. -/
def ThrownDynamite.signal (e dts : ℕ → ℚ) (tr : ℕ → Terrain) (d0 : ThrownDynamite)
    (n : ℕ) : Bool :=
  ((ThrownDynamite.run e dts tr d0 n).update (e n) (dts n) (tr n)).2

/-! ## Auxiliary definitions used by the verification statements -/

/-- The per-tool diggable-material table exactly as the specification states
it (to be compared against the source's `Terrain.can_dig`). -/
def specDiggable : Tool → List Mat
  | Tool.drill => [Mat.dirt, Mat.rock]
  | Tool.dynamite => [Mat.dirt, Mat.rock, Mat.metal]
  | Tool.laser => [Mat.rock, Mat.metal]
  | Tool.torch => [Mat.dirt, Mat.rock]

/-- The arguments of one `Terrain.dig` invocation (center, radius, and the
torch direction data, see `Terrain.torchCells`). -/
structure DigCall where
  x : ℚ
  y : ℚ
  radius : ℚ
  centerOff : ℕ → ℤ × ℤ
  coneWidth : ℕ → ℕ

/-- A sequence of `Terrain.dig` calls with a fixed tool. -/
def Terrain.digMany (tool : Tool) (calls : List DigCall) (t : Terrain) : Terrain :=
  calls.foldl (fun s c => s.dig c.x c.y c.radius tool c.centerOff c.coneWidth) t

/-- Number of `EMPTY` cells in the grid. -/
def Terrain.countEmpty (t : Terrain) : ℕ :=
  ((List.range t.height).flatMap fun y =>
    (List.range t.width).filter fun x => decide (t.tiles y x = Mat.empty)).length

/-- A 16x16 grid in which every cell is Dirt. -/
def allDirt16 : Terrain where
  width := 16
  height := 16
  tiles := fun _ _ => Mat.dirt
  items := fun _ => none
  terrain_dirty := false

/-- A full-map-sized grid (240x114 cells, the `MAP_WIDTH`/`MAP_HEIGHT` of
src/config.py) in which every cell is Dirt. -/
def wideDirt : Terrain where
  width := 240
  height := 114
  tiles := fun _ _ => Mat.dirt
  items := fun _ => none
  terrain_dirty := false

/-- A degenerate empty grid, usable as an arbitrary terrain argument. -/
def emptyTerrain : Terrain where
  width := 0
  height := 0
  tiles := fun _ _ => Mat.empty
  items := fun _ => none
  terrain_dirty := false

/-- The result of one drill dig on the all-Dirt grid, aimed at pixel
`(80, 242)`, i.e. at grid cell `(10, 10)`. -/
def drillDug16 : Terrain :=
  allDirt16.dig 80 242 0 Tool.drill (fun _ => (0, 0)) (fun _ => 0)

/-- The lifecycle events a worm's health can be driven by: a `take_damage`
call, a `die` transition, or a `respawn` reset. -/
inductive WormEvent where
  | damage (amount : ℤ) (source : Option ℕ)
  | death (killer : KillerKind) (new_pos : Option (ℚ × ℚ))
  | rebirth (pos : Option (ℚ × ℚ))

/-- Apply one lifecycle event to a worm's state. -/
def Worm.applyEvent (w : Worm) : WormEvent → Worm
  | WormEvent.damage a s => (w.take_damage a s).1
  | WormEvent.death k p => (w.die k p).1
  | WormEvent.rebirth p => (w.respawn p).1

/-- Whether an event's damage amount is nonnegative (true of every
`take_damage` call site in the source: all tool damages are positive
constants, fall damage is `max(1, ...)` and blast damage is `max(10, ...)`). -/
def WormEvent.damageNonneg : WormEvent → Bool
  | WormEvent.damage a _ => decide (0 ≤ a)
  | _ => true

/-! ## Lemmas about the dig loop -/

theorem Terrain.digCell_width (tool : Tool) (t : Terrain) (c : ℤ × ℤ) :
    (Terrain.digCell tool t c).width = t.width := by
  unfold Terrain.digCell Terrain.set_tile
  split_ifs <;> rfl

theorem Terrain.digCell_height (tool : Tool) (t : Terrain) (c : ℤ × ℤ) :
    (Terrain.digCell tool t c).height = t.height := by
  unfold Terrain.digCell Terrain.set_tile
  split_ifs <;> rfl

theorem Terrain.digCell_items (tool : Tool) (t : Terrain) (c : ℤ × ℤ) :
    (Terrain.digCell tool t c).items = t.items := by
  unfold Terrain.digCell Terrain.set_tile
  split_ifs <;> rfl

/-- Each iteration of the dig loop either leaves a cell alone or clears it. -/
theorem Terrain.digCell_tiles_or (tool : Tool) (t : Terrain) (c : ℤ × ℤ) (y x : ℕ) :
    (Terrain.digCell tool t c).tiles y x = t.tiles y x ∨
      (Terrain.digCell tool t c).tiles y x = Mat.empty := by
  unfold Terrain.digCell Terrain.set_tile
  split_ifs with h1 h2
  · dsimp only
    split_ifs with h3
    · exact Or.inr rfl
    · exact Or.inl rfl
  · exact Or.inl rfl
  · exact Or.inl rfl

/-- A cell whose current material the tool cannot dig is untouched by one
iteration of the dig loop. -/
theorem Terrain.digCell_preserve (tool : Tool) (t : Terrain) (c : ℤ × ℤ) (y x : ℕ)
    (h : Terrain.can_dig (t.tiles y x) tool = false) :
    (Terrain.digCell tool t c).tiles y x = t.tiles y x := by
  unfold Terrain.digCell Terrain.set_tile
  split_ifs with h1 h2
  · dsimp only
    split_ifs with h3
    · rw [h3.1, h3.2] at h
      rw [h] at h2
      cases h2
    · rfl
  · rfl
  · rfl

/-- One iteration of the dig loop can only touch the cell it targets. -/
theorem Terrain.digCell_ne (tool : Tool) (t : Terrain) (c : ℤ × ℤ) (y x : ℕ)
    (h : c ≠ ((x : ℤ), (y : ℤ))) :
    (Terrain.digCell tool t c).tiles y x = t.tiles y x := by
  unfold Terrain.digCell Terrain.set_tile
  split_ifs with h1 h2
  · dsimp only
    split_ifs with h3
    · exfalso
      apply h
      have hx : c.1 = (x : ℤ) := by
        have := h3.2
        omega
      have hy : c.2 = (y : ℤ) := by
        have := h3.1
        omega
      exact Prod.ext hx hy
    · rfl
  · rfl
  · rfl

theorem Terrain.digList_width (tool : Tool) (cells : List (ℤ × ℤ)) (t : Terrain) :
    (Terrain.digList tool cells t).width = t.width := by
  induction cells generalizing t with
  | nil => rfl
  | cons c rest ih =>
      simp only [Terrain.digList, List.foldl_cons] at *
      rw [ih, Terrain.digCell_width]

theorem Terrain.digList_height (tool : Tool) (cells : List (ℤ × ℤ)) (t : Terrain) :
    (Terrain.digList tool cells t).height = t.height := by
  induction cells generalizing t with
  | nil => rfl
  | cons c rest ih =>
      simp only [Terrain.digList, List.foldl_cons] at *
      rw [ih, Terrain.digCell_height]

theorem Terrain.digList_items (tool : Tool) (cells : List (ℤ × ℤ)) (t : Terrain) :
    (Terrain.digList tool cells t).items = t.items := by
  induction cells generalizing t with
  | nil => rfl
  | cons c rest ih =>
      simp only [Terrain.digList, List.foldl_cons] at *
      rw [ih, Terrain.digCell_items]

theorem Terrain.digList_tiles_or (tool : Tool) (cells : List (ℤ × ℤ)) (t : Terrain)
    (y x : ℕ) :
    (Terrain.digList tool cells t).tiles y x = t.tiles y x ∨
      (Terrain.digList tool cells t).tiles y x = Mat.empty := by
  induction cells generalizing t with
  | nil => exact Or.inl rfl
  | cons c rest ih =>
      simp only [Terrain.digList, List.foldl_cons] at *
      rcases ih (Terrain.digCell tool t c) with h | h
      · rw [h]
        exact Terrain.digCell_tiles_or tool t c y x
      · exact Or.inr h

/-- A cell whose material the tool cannot dig is untouched by the whole loop. -/
theorem Terrain.digList_preserve (tool : Tool) (cells : List (ℤ × ℤ)) (t : Terrain)
    (y x : ℕ) (h : Terrain.can_dig (t.tiles y x) tool = false) :
    (Terrain.digList tool cells t).tiles y x = t.tiles y x := by
  induction cells generalizing t with
  | nil => rfl
  | cons c rest ih =>
      simp only [Terrain.digList, List.foldl_cons] at *
      have hc := Terrain.digCell_preserve tool t c y x h
      rw [ih (Terrain.digCell tool t c) (by rw [hc]; exact h), hc]

/-- A cell targeted by no entry of the footprint list is untouched. -/
theorem Terrain.digList_ne (tool : Tool) (cells : List (ℤ × ℤ)) (t : Terrain)
    (y x : ℕ) (h : ∀ c ∈ cells, c ≠ ((x : ℤ), (y : ℤ))) :
    (Terrain.digList tool cells t).tiles y x = t.tiles y x := by
  induction cells generalizing t with
  | nil => rfl
  | cons c rest ih =>
      simp only [Terrain.digList, List.foldl_cons] at *
      have hc := Terrain.digCell_ne tool t c y x (h c (by simp))
      rw [ih (Terrain.digCell tool t c) (fun d hd => h d (by simp [hd])), hc]

/-- Unfolding one step of the dig loop. -/
theorem Terrain.digList_cons (tool : Tool) (c : ℤ × ℤ) (rest : List (ℤ × ℤ))
    (t : Terrain) :
    Terrain.digList tool (c :: rest) t =
      Terrain.digList tool rest (Terrain.digCell tool t c) :=
  rfl

/-- A diggable (or already empty) in-bounds cell that appears in the footprint
list ends up empty. -/
theorem Terrain.digList_mem_empty (tool : Tool) (cells : List (ℤ × ℤ)) (t : Terrain)
    (y x : ℕ) (hx : x < t.width) (hy : y < t.height)
    (hmem : ((x : ℤ), (y : ℤ)) ∈ cells)
    (hmat : Terrain.can_dig (t.tiles y x) tool = true ∨ t.tiles y x = Mat.empty) :
    (Terrain.digList tool cells t).tiles y x = Mat.empty := by
  induction cells generalizing t with
  | nil => cases hmem
  | cons c rest ih =>
      rw [Terrain.digList_cons]
      by_cases hceq : c = ((x : ℤ), (y : ℤ))
      · have hcell : (Terrain.digCell tool t c).tiles y x = Mat.empty := by
          subst hceq
          unfold Terrain.digCell Terrain.set_tile
          dsimp only
          have hb : (0 : ℤ) ≤ (x : ℤ) ∧ (x : ℤ) < (t.width : ℤ) ∧
              (0 : ℤ) ≤ (y : ℤ) ∧ (y : ℤ) < (t.height : ℤ) := by
            refine ⟨Int.ofNat_nonneg x, ?_, Int.ofNat_nonneg y, ?_⟩
            · exact_mod_cast hx
            · exact_mod_cast hy
          rw [if_pos hb]
          simp only [Int.toNat_natCast]
          rcases hmat with hdig | hempty
          · rw [if_pos hdig]
            simp
          · rw [hempty]
            have hnd : Terrain.can_dig Mat.empty tool = false := by
              cases tool <;> rfl
            rw [hnd]
            simp only [Bool.false_eq_true, if_false]
            exact hempty
        rcases Terrain.digList_tiles_or tool rest (Terrain.digCell tool t c) y x with h | h
        · rw [h, hcell]
        · exact h
      · rcases List.mem_cons.mp hmem with hmem1 | hmem2
        · exact absurd hmem1.symm hceq
        · apply ih (Terrain.digCell tool t c)
          · rw [Terrain.digCell_width]
            exact hx
          · rw [Terrain.digCell_height]
            exact hy
          · exact hmem2
          · rcases Terrain.digCell_tiles_or tool t c y x with h | h
            · rw [h]
              exact hmat
            · rw [h]
              exact Or.inr rfl

theorem Terrain.dig_tiles_or (t : Terrain) (x y radius : ℚ) (tool : Tool)
    (centerOff : ℕ → ℤ × ℤ) (coneWidth : ℕ → ℕ) (cy cx : ℕ) :
    (t.dig x y radius tool centerOff coneWidth).tiles cy cx = t.tiles cy cx ∨
      (t.dig x y radius tool centerOff coneWidth).tiles cy cx = Mat.empty := by
  unfold Terrain.dig
  cases tool <;> exact Terrain.digList_tiles_or _ _ _ _ _

theorem Terrain.dig_items (t : Terrain) (x y radius : ℚ) (tool : Tool)
    (centerOff : ℕ → ℤ × ℤ) (coneWidth : ℕ → ℕ) :
    (t.dig x y radius tool centerOff coneWidth).items = t.items := by
  unfold Terrain.dig
  cases tool <;> exact Terrain.digList_items _ _ _

theorem Terrain.dig_preserve (t : Terrain) (x y radius : ℚ) (tool : Tool)
    (centerOff : ℕ → ℤ × ℤ) (coneWidth : ℕ → ℕ) (cy cx : ℕ)
    (h : Terrain.can_dig (t.tiles cy cx) tool = false) :
    (t.dig x y radius tool centerOff coneWidth).tiles cy cx = t.tiles cy cx := by
  unfold Terrain.dig
  cases tool <;> exact Terrain.digList_preserve _ _ _ _ _ h

/-- The source's diggability table agrees tool-by-tool with the
specification's table (and nothing, in particular, can dig `EMPTY`). -/
theorem can_dig_false_of_not_mem :
    ∀ (m : Mat) (tool : Tool), m ∉ specDiggable tool → Terrain.can_dig m tool = false := by
  decide

theorem Terrain.digMany_cons (tool : Tool) (c : DigCall) (rest : List DigCall)
    (t : Terrain) :
    Terrain.digMany tool (c :: rest) t =
      Terrain.digMany tool rest (t.dig c.x c.y c.radius tool c.centerOff c.coneWidth) :=
  rfl

/-- C1: for every terrain cell and every tool, any number of `Terrain.dig`
calls (any center, radius and direction) with a tool whose diggable set —
Drill `{Dirt, Rock}`, Explosive blast `{Dirt, Rock, Metal}`, Energy beam
`{Rock, Metal}`, Flame cone `{Dirt, Rock}` — does not contain the cell's
material leave that cell's material unchanged. -/
theorem C1_diggability_invariant (tool : Tool) (m : Mat)
    (hm : m ∉ specDiggable tool) (calls : List DigCall) (t : Terrain) (cy cx : ℕ)
    (ht : t.tiles cy cx = m) :
    (Terrain.digMany tool calls t).tiles cy cx = m := by
  induction calls generalizing t with
  | nil => exact ht
  | cons c rest ih =>
      rw [Terrain.digMany_cons]
      apply ih
      rw [Terrain.dig_preserve, ht]
      rw [ht]
      exact can_dig_false_of_not_mem m tool hm

theorem C1_diggability_invariant_witness :
    Mat.dirt ∉ specDiggable Tool.laser ∧
      (Terrain.digMany Tool.laser
          [{ x := 100, y := 300, radius := 96, centerOff := fun _ => (0, 0),
             coneWidth := fun _ => 0 }] allDirt16).tiles 5 5 = Mat.dirt :=
  ⟨by decide,
   C1_diggability_invariant Tool.laser Mat.dirt (by decide) _ allDirt16 5 5 rfl⟩

/-- C10: every `Terrain.dig` call, for every tool, center, radius and
direction, only removes material — each grid cell is either left unchanged or
set to `EMPTY` — and never modifies the sparse item map. -/
theorem C10_dig_only_removes (t : Terrain) (x y radius : ℚ) (tool : Tool)
    (centerOff : ℕ → ℤ × ℤ) (coneWidth : ℕ → ℕ) :
    (∀ cy cx : ℕ,
        (t.dig x y radius tool centerOff coneWidth).tiles cy cx = t.tiles cy cx ∨
          (t.dig x y radius tool centerOff coneWidth).tiles cy cx = Mat.empty) ∧
      (t.dig x y radius tool centerOff coneWidth).items = t.items :=
  ⟨fun cy cx => Terrain.dig_tiles_or t x y radius tool centerOff coneWidth cy cx,
   Terrain.dig_items t x y radius tool centerOff coneWidth⟩

/-- The drill footprint at target cell `(10, 10)`: 5 columns (8..12) by
5 rows (10..14). -/
theorem drillCells_10_10 :
    Terrain.drillCells 10 10 =
      [(8, 10), (9, 10), (10, 10), (11, 10), (12, 10),
       (8, 11), (9, 11), (10, 11), (11, 11), (12, 11),
       (8, 12), (9, 12), (10, 12), (11, 12), (12, 12),
       (8, 13), (9, 13), (10, 13), (11, 13), (12, 13),
       (8, 14), (9, 14), (10, 14), (11, 14), (12, 14)] := by
  decide

theorem mem_drillCells_10_10 (x y : ℕ) :
    ((x : ℤ), (y : ℤ)) ∈ Terrain.drillCells 10 10 ↔
      8 ≤ x ∧ x ≤ 12 ∧ 10 ≤ y ∧ y ≤ 14 := by
  rw [drillCells_10_10]
  constructor
  · intro h
    simp only [List.mem_cons, List.not_mem_nil, or_false, Prod.mk.injEq] at h
    rcases h with h|h|h|h|h|h|h|h|h|h|h|h|h|h|h|h|h|h|h|h|h|h|h|h|h <;> omega
  · rintro ⟨h1, h2, h3, h4⟩
    interval_cases x <;> interval_cases y <;> decide

theorem floor_80_div_8 : ⌊(80 : ℚ) / (TILE_SIZE : ℚ)⌋ = 10 := by
  norm_num [TILE_SIZE]

theorem floor_242_sub_ui_div_8 : ⌊((242 : ℚ) - (UI_HEIGHT : ℚ)) / (TILE_SIZE : ℚ)⌋ = 10 := by
  norm_num [UI_HEIGHT, TILE_SIZE]

/-- A drill dig at pixel `(80, 242)` is the dig loop over the drill footprint
at cell `(10, 10)`. -/
theorem dig_80_242_drill_tiles (t : Terrain) (centerOff : ℕ → ℤ × ℤ)
    (coneWidth : ℕ → ℕ) (cy cx : ℕ) :
    (t.dig 80 242 0 Tool.drill centerOff coneWidth).tiles cy cx =
      (Terrain.digList Tool.drill (Terrain.drillCells 10 10) t).tiles cy cx := by
  unfold Terrain.dig
  rw [floor_80_div_8, floor_242_sub_ui_div_8]

/-- A drill dig at pixel `(80, 242)` written as the dig loop over the drill
footprint at cell `(10, 10)`. -/
theorem dig_80_242_drill_eq (t : Terrain) (centerOff : ℕ → ℤ × ℤ)
    (coneWidth : ℕ → ℕ) :
    t.dig 80 242 0 Tool.drill centerOff coneWidth =
      { Terrain.digList Tool.drill (Terrain.drillCells 10 10) t with
        terrain_dirty := true } := by
  unfold Terrain.dig
  rw [floor_80_div_8, floor_242_sub_ui_div_8]

set_option maxRecDepth 4000 in
/-- C6 counterexample: on the all-Dirt grid, one drill dig aimed at cell
`(10, 10)` empties 25 cells — a 5-by-5 region — not the
`drill_width_tiles * drill_depth_tiles = 4 * 5 = 20` cells of a W-by-D
rectangle: the column loop runs over `drill_width_tiles // 2` cells on each
side of the target column plus the column itself, one more column than
`drill_width_tiles`. -/
theorem C6_drill_counterexample :
    max 1 (DRILL_WIDTH.fdiv TILE_SIZE) = 4 ∧
      max 1 (DRILL_DEPTH.fdiv TILE_SIZE) = 5 ∧
      drillDug16.countEmpty = 25 ∧
      drillDug16.tiles 10 8 = Mat.empty ∧
      drillDug16.tiles 10 12 = Mat.empty ∧
      (25 : ℕ) ≠ 4 * 5 := by
  have he : drillDug16 =
      { Terrain.digList Tool.drill (Terrain.drillCells 10 10) allDirt16 with
        terrain_dirty := true } :=
    dig_80_242_drill_eq allDirt16 (fun _ => (0, 0)) (fun _ => 0)
  rw [he]
  decide

/-- C6 (amended): starting from an all-Dirt grid, one drill dig call aimed at
cell `(10, 10)` leaves exactly the cells of the 5-by-5 rectangle with columns
`8..12` (the target column plus `drill_width_tiles / 2 = 2` on each side) and
rows `10..14` (depth `drill_depth_tiles = 5`, extending down from the target
row) Empty, and leaves every other cell Dirt. -/
theorem C6_drill_digging (t : Terrain)
    (hall : ∀ cy cx : ℕ, cy < t.height → cx < t.width → t.tiles cy cx = Mat.dirt)
    (centerOff : ℕ → ℤ × ℤ) (coneWidth : ℕ → ℕ) (cy cx : ℕ)
    (hy : cy < t.height) (hx : cx < t.width) :
    (t.dig 80 242 0 Tool.drill centerOff coneWidth).tiles cy cx =
      if 8 ≤ cx ∧ cx ≤ 12 ∧ 10 ≤ cy ∧ cy ≤ 14 then Mat.empty else Mat.dirt := by
  rw [dig_80_242_drill_tiles]
  by_cases h : 8 ≤ cx ∧ cx ≤ 12 ∧ 10 ≤ cy ∧ cy ≤ 14
  · rw [if_pos h]
    apply Terrain.digList_mem_empty Tool.drill _ t cy cx hx hy
    · exact (mem_drillCells_10_10 cx cy).mpr h
    · left
      rw [hall cy cx hy hx]
      rfl
  · rw [if_neg h]
    rw [Terrain.digList_ne]
    · exact hall cy cx hy hx
    · intro c hc hceq
      apply h
      apply (mem_drillCells_10_10 cx cy).mp
      rw [← hceq]
      exact hc

theorem C6_drill_digging_witness :
    (allDirt16.dig 80 242 0 Tool.drill (fun _ => (0, 0)) (fun _ => 0)).tiles 10 8 =
      Mat.empty := by
  have h := C6_drill_digging allDirt16 (fun _ _ _ _ => rfl) (fun _ => (0, 0)) (fun _ => 0)
    10 8 (by decide) (by decide)
  simpa using h

/-- C7 counterexample: at a pixel whose column is out of bounds (tile column
`-1`) but whose row falls below the bottom of the grid, `get_tile` returns
`EMPTY`, not the boundary `METAL` the claim requires for every out-of-bounds
column. -/
theorem C7_counterexample :
    wideDirt.get_tile (-8) 2000 = Mat.empty ∧
      ⌊(-8 : ℚ) / (TILE_SIZE : ℚ)⌋ < 0 ∧
      Mat.empty ≠ Mat.metal := by
  refine ⟨?_, by norm_num [TILE_SIZE], by decide⟩
  simp only [Terrain.get_tile, wideDirt]
  norm_num [UI_HEIGHT, TILE_SIZE]

/-- C7 (amended): `get_tile` translates pixel coordinates to the grid cell
(`x // TILE_SIZE`, `(y - UI_HEIGHT) // TILE_SIZE`) and returns that cell's
material when it is inside the grid; any coordinate whose row falls below the
bottom of the grid reads `EMPTY` — even when its column is also out of bounds
— and every remaining out-of-grid coordinate (column out of bounds or row
above the top, row not below the bottom) reads `METAL`; `is_solid` holds iff
`get_tile` is not `EMPTY`. -/
theorem C7_get_tile_boundary (t : Terrain) (x y : ℚ) :
    (0 ≤ ⌊x / (TILE_SIZE : ℚ)⌋ → ⌊x / (TILE_SIZE : ℚ)⌋ < (t.width : ℤ) →
      0 ≤ ⌊(y - (UI_HEIGHT : ℚ)) / (TILE_SIZE : ℚ)⌋ →
      ⌊(y - (UI_HEIGHT : ℚ)) / (TILE_SIZE : ℚ)⌋ < (t.height : ℤ) →
      t.get_tile x y =
        t.tiles ⌊(y - (UI_HEIGHT : ℚ)) / (TILE_SIZE : ℚ)⌋.toNat
          ⌊x / (TILE_SIZE : ℚ)⌋.toNat) ∧
    ((t.height : ℤ) ≤ ⌊(y - (UI_HEIGHT : ℚ)) / (TILE_SIZE : ℚ)⌋ →
      t.get_tile x y = Mat.empty) ∧
    (⌊(y - (UI_HEIGHT : ℚ)) / (TILE_SIZE : ℚ)⌋ < (t.height : ℤ) →
      ¬(0 ≤ ⌊x / (TILE_SIZE : ℚ)⌋ ∧ ⌊x / (TILE_SIZE : ℚ)⌋ < (t.width : ℤ) ∧
          0 ≤ ⌊(y - (UI_HEIGHT : ℚ)) / (TILE_SIZE : ℚ)⌋) →
      t.get_tile x y = Mat.metal) ∧
    (t.is_solid x y = true ↔ t.get_tile x y ≠ Mat.empty) := by
  refine ⟨?_, ?_, ?_, ?_⟩
  · intro h1 h2 h3 h4
    unfold Terrain.get_tile
    rw [if_pos ⟨h1, h2, h3, h4⟩]
  · intro h
    simp only [Terrain.get_tile]
    split_ifs with h1
    · exact absurd h1.2.2.2 (by omega)
    · rfl
  · intro hlt hnot
    simp only [Terrain.get_tile]
    split_ifs with h1 h2
    · exact absurd ⟨h1.1, h1.2.1, h1.2.2.1⟩ hnot
    · exact absurd h2 (by omega)
    · rfl
  · simp [Terrain.is_solid]

theorem C7_get_tile_boundary_witness :
    wideDirt.get_tile 80 242 = Mat.dirt := by
  have h := (C7_get_tile_boundary wideDirt 80 242).1
    (by norm_num [TILE_SIZE]) (by norm_num [TILE_SIZE, wideDirt])
    (by norm_num [TILE_SIZE, UI_HEIGHT]) (by norm_num [TILE_SIZE, UI_HEIGHT, wideDirt])
  rw [h]
  rfl

/-! ## Worm lifecycle claims -/

/-- C3: `take_damage` is a no-op returning the "no effect" result whenever the
worm is Dying/Respawning or its spawn-protection timer is positive: the worm
state is returned unchanged and no death handling is requested. -/
theorem C3_damage_noop_when_protected (w : Worm) (damage : ℤ) (source : Option ℕ)
    (h : w.is_respawning = true ∨ 0 < w.spawn_protection) :
    w.take_damage damage source = (w, DamageResult.noEffect) := by
  unfold Worm.take_damage
  rw [if_pos (Or.inr h)]

theorem C3_damage_noop_when_protected_witness :
    ({ mkWorm 0 0 with is_respawning := true } : Worm).take_damage 50 none =
      ({ mkWorm 0 0 with is_respawning := true }, DamageResult.noEffect) :=
  C3_damage_noop_when_protected _ 50 none (Or.inl rfl)

theorem Worm.die_fst_hp (w : Worm) (k : KillerKind) (pos : Option (ℚ × ℚ)) :
    (w.die k pos).1.hp = w.hp ∧ (w.die k pos).1.max_hp = w.max_hp := by
  unfold Worm.die
  split_ifs
  · exact ⟨rfl, rfl⟩
  · cases k <;> cases pos <;> simp

theorem Worm.respawn_fst_hp (w : Worm) (pos : Option (ℚ × ℚ)) :
    ((w.respawn pos).1.hp = w.hp ∧ (w.respawn pos).1.max_hp = w.max_hp) ∨
      ((w.respawn pos).1.hp = w.max_hp ∧ (w.respawn pos).1.max_hp = w.max_hp) := by
  unfold Worm.respawn
  split_ifs
  · exact Or.inl ⟨rfl, rfl⟩
  · cases pos <;> exact Or.inr ⟨by simp, by simp⟩

theorem Worm.take_damage_fst_hp (w : Worm) (damage : ℤ) (source : Option ℕ) :
    (w.take_damage damage source).1.hp = w.hp ∨
      (w.take_damage damage source).1.hp = max 0 (w.hp - damage) := by
  unfold Worm.take_damage
  by_cases h1 : w.is_dead = true ∨ w.is_respawning = true ∨ 0 < w.spawn_protection
  · rw [if_pos h1]
    exact Or.inl rfl
  · rw [if_neg h1]
    dsimp only
    split_ifs <;> exact Or.inr rfl

theorem Worm.take_damage_fst_max_hp (w : Worm) (damage : ℤ) (source : Option ℕ) :
    (w.take_damage damage source).1.max_hp = w.max_hp := by
  unfold Worm.take_damage
  by_cases h1 : w.is_dead = true ∨ w.is_respawning = true ∨ 0 < w.spawn_protection
  · rw [if_pos h1]
  · rw [if_neg h1]
    dsimp only
    split_ifs <;> rfl

/-- One lifecycle event keeps health inside `[0, max]`. -/
theorem Worm.applyEvent_hp_bounds (w : Worm) (e : WormEvent)
    (h0 : 0 ≤ w.hp) (h1 : w.hp ≤ w.max_hp) (hd : e.damageNonneg = true) :
    0 ≤ (w.applyEvent e).hp ∧ (w.applyEvent e).hp ≤ (w.applyEvent e).max_hp := by
  cases e with
  | damage a s =>
      simp only [WormEvent.damageNonneg, decide_eq_true_eq] at hd
      have hmax := Worm.take_damage_fst_max_hp w a s
      rcases Worm.take_damage_fst_hp w a s with h | h <;>
        rw [Worm.applyEvent] <;> rw [h, hmax] <;> omega
  | death k p =>
      rw [Worm.applyEvent]
      rcases Worm.die_fst_hp w k p with ⟨hh, hm⟩
      rw [hh, hm]
      exact ⟨h0, h1⟩
  | rebirth p =>
      rw [Worm.applyEvent]
      rcases Worm.respawn_fst_hp w p with ⟨hh, hm⟩ | ⟨hh, hm⟩ <;> rw [hh, hm] <;> omega

/-- C9: over every sequence of `take_damage` calls (with the nonnegative
damage amounts the game produces), deaths and respawn resets, health stays in
the interval `[0, max]`. -/
theorem C9_health_bounds (w : Worm) (evs : List WormEvent)
    (h0 : 0 ≤ w.hp) (h1 : w.hp ≤ w.max_hp)
    (hd : ∀ e ∈ evs, e.damageNonneg = true) :
    0 ≤ (evs.foldl Worm.applyEvent w).hp ∧
      (evs.foldl Worm.applyEvent w).hp ≤ (evs.foldl Worm.applyEvent w).max_hp := by
  induction evs generalizing w with
  | nil => exact ⟨h0, h1⟩
  | cons e rest ih =>
      rw [List.foldl_cons]
      have he := Worm.applyEvent_hp_bounds w e h0 h1 (hd e (by simp))
      exact ih (w.applyEvent e) he.1 he.2 (fun e2 h2 => hd e2 (by simp [h2]))

theorem C9_health_bounds_witness :
    0 ≤ ([WormEvent.damage 30 none, WormEvent.death KillerKind.noKiller none,
          WormEvent.rebirth none, WormEvent.damage 250 none].foldl
            Worm.applyEvent (mkWorm 0 0)).hp ∧
      ([WormEvent.damage 30 none, WormEvent.death KillerKind.noKiller none,
        WormEvent.rebirth none, WormEvent.damage 250 none].foldl
          Worm.applyEvent (mkWorm 0 0)).hp ≤
        ([WormEvent.damage 30 none, WormEvent.death KillerKind.noKiller none,
          WormEvent.rebirth none, WormEvent.damage 250 none].foldl
            Worm.applyEvent (mkWorm 0 0)).max_hp :=
  C9_health_bounds (mkWorm 0 0) _ (by decide) (by decide) (by decide)

/-- C8: the world-bounds step of `Worm.update` wraps a worm whose `y` exceeds
the bottom of the playable world (`SCREEN_HEIGHT + WORM_RADIUS`) to the band
just below the UI (`UI_HEIGHT + 50`) with zero horizontal velocity and a small
positive vertical velocity; the wrapped position no longer satisfies the wrap
condition, and a worm not past the bottom (and not above the top margin) keeps
its `y` and both velocities — so the wrap fires exactly once per crossing. -/
theorem C8_fall_through_wrap (w : Worm) :
    ((SCREEN_HEIGHT : ℚ) + (WORM_RADIUS : ℚ) < w.y →
      w.update_bounds.y = (UI_HEIGHT : ℚ) + 50 ∧
        w.update_bounds.vel_x = 0 ∧ w.update_bounds.vel_y = 50 ∧
        ¬((SCREEN_HEIGHT : ℚ) + (WORM_RADIUS : ℚ) < w.update_bounds.y)) ∧
    (-50 ≤ w.y → w.y ≤ (SCREEN_HEIGHT : ℚ) + (WORM_RADIUS : ℚ) →
      w.update_bounds.y = w.y ∧ w.update_bounds.vel_x = w.vel_x ∧
        w.update_bounds.vel_y = w.vel_y) := by
  constructor
  · intro h
    unfold Worm.update_bounds
    dsimp only
    rw [if_pos h]
    dsimp only
    rw [if_neg (by norm_num [UI_HEIGHT])]
    refine ⟨rfl, rfl, rfl, ?_⟩
    norm_num [SCREEN_HEIGHT, WORM_RADIUS, UI_HEIGHT]
  · intro h1 h2
    unfold Worm.update_bounds
    dsimp only
    rw [if_neg (not_lt.mpr h2)]
    dsimp only
    rw [if_neg (not_lt.mpr h1)]
    exact ⟨rfl, rfl, rfl⟩

theorem C8_fall_through_wrap_witness :
    (SCREEN_HEIGHT : ℚ) + (WORM_RADIUS : ℚ) < (mkWorm 0 2000).y ∧
      (mkWorm 0 2000).update_bounds.y = (UI_HEIGHT : ℚ) + 50 ∧
      (mkWorm 0 2000).update_bounds.vel_x = 0 ∧
      (mkWorm 0 2000).update_bounds.vel_y = 50 := by
  have hy : (SCREEN_HEIGHT : ℚ) + (WORM_RADIUS : ℚ) < (mkWorm 0 2000).y := by
    norm_num [SCREEN_HEIGHT, WORM_RADIUS, mkWorm]
  have h := (C8_fall_through_wrap (mkWorm 0 2000)).1 hy
  exact ⟨hy, h.1, h.2.1, h.2.2.1⟩

/-- C4 counterexample: dying with 0 gas produces a tombstone holding 1 gas
while the worm keeps 0, so `tombstoneGas + remainingGas = 1 ≠ 0 = gasAtDeath`;
and dying with 11 gas produces a tombstone holding 2 gas, not the
`⌈0.2 * 11⌉ = 3` that "20%, rounded up" would give. -/
theorem C4_counterexample :
    ((({ mkWorm 0 0 with gas := 0 } : Worm).die KillerKind.noKiller none).2.map
        fun td => td.gas) = some 1 ∧
      (({ mkWorm 0 0 with gas := 0 } : Worm).die KillerKind.noKiller none).1.gas = 0 ∧
      (1 : ℤ) + 0 ≠ 0 ∧
      ((({ mkWorm 0 0 with gas := 11 } : Worm).die KillerKind.noKiller none).2.map
        fun td => td.gas) = some 2 ∧
      ⌈(11 : ℚ) / 5⌉ = 3 ∧ (2 : ℤ) ≠ 3 := by
  refine ⟨by decide, by decide, by decide, by decide, ?_, by decide⟩
  rw [Int.ceil_eq_iff]
  norm_num

/-- C4 (amended): `die` carves out a tombstone holding
`max(1, round-half-up(0.2 * gas))` gas and `round-half-up(0.2 * charges)`
charges, clamping the worm's remaining pools at zero; consequently
`tombstoneGas + remainingGas = gasAtDeath` whenever the worm holds at least 1
gas (at 0 gas the tombstone's 1-gas minimum breaks conservation), and
`tombstoneCharges + remainingCharges = chargesAtDeath` always. -/
theorem C4_tombstone_conservation (w : Worm) (k : KillerKind) (pos : Option (ℚ × ℚ))
    (hd : w.is_dead = false) (hr : w.is_respawning = false)
    (hg : 1 ≤ w.gas) (hdyn : 0 ≤ w.dynamite_count) :
    ((w.die k pos).2.map fun td => td.gas) = some (max 1 (tombstoneShare w.gas)) ∧
      ((w.die k pos).2.map fun td => td.dynamite) =
        some (tombstoneShare w.dynamite_count) ∧
      (w.die k pos).1.gas + max 1 (tombstoneShare w.gas) = w.gas ∧
      (w.die k pos).1.dynamite_count + tombstoneShare w.dynamite_count =
        w.dynamite_count ∧
      0 ≤ (w.die k pos).1.gas ∧ 0 ≤ (w.die k pos).1.dynamite_count := by
  have hcond : ¬(w.is_dead = true ∨ w.is_respawning = true) := by
    simp [hd, hr]
  unfold Worm.die
  rw [if_neg hcond]
  cases k <;> cases pos <;> simp [tombstoneShare] <;> omega

theorem C4_tombstone_conservation_witness :
    (({ mkWorm 0 0 with gas := 11, dynamite_count := 7 } : Worm).die
        KillerKind.noKiller none).1.gas + max 1 (tombstoneShare 11) = 11 ∧
      (({ mkWorm 0 0 with gas := 11, dynamite_count := 7 } : Worm).die
          KillerKind.noKiller none).1.dynamite_count + tombstoneShare 7 = 7 := by
  have h := C4_tombstone_conservation
    { mkWorm 0 0 with gas := 11, dynamite_count := 7 }
    KillerKind.noKiller none rfl rfl (by decide) (by decide)
  exact ⟨h.2.2.1, h.2.2.2.1⟩

/-! ## Explosion claims -/

/-- C2: `apply_damage` deals every non-dead worm whose head lies within
`radius` of the center damage `max(EXPLOSION_MIN_DAMAGE, base_damage -
floor(distance))` (through `take_damage`), deals nothing to a worm beyond the
radius, and in particular for radius 96 and base damage 70 a plain-alive worm
at distance 50 loses exactly `max(10, 70 - 50) = 20` health while a worm at
distance 200 is untouched. -/
theorem C2_blast_damage_falloff :
    (∀ (e : Explosion) (w : Worm), w.is_dead = false → e.dist2 w ≤ e.radius ^ 2 →
        (e.apply_damage_one w).2 =
          some (max EXPLOSION_MIN_DAMAGE
            (e.base_damage - (floorSqrt (e.dist2 w) : ℤ)))) ∧
    (∀ (e : Explosion) (w : Worm), e.radius ^ 2 < e.dist2 w →
        e.apply_damage_one w = (w, none)) ∧
    (∀ (e : Explosion) (ws : List Worm),
        (e.apply_damage ws).1 = ws.map fun w => (e.apply_damage_one w).1) ∧
    (∀ w : Worm, w.is_dead = false → w.is_respawning = false →
        w.spawn_protection ≤ 0 → w.body_head = (50, 0) → 20 ≤ w.hp →
        ((⟨0, 0, 96, 70, none⟩ : Explosion).apply_damage_one w).1.hp = w.hp - 20 ∧
          ((⟨0, 0, 96, 70, none⟩ : Explosion).apply_damage_one w).2 = some 20) ∧
    (∀ w : Worm, w.body_head = (200, 0) →
        (⟨0, 0, 96, 70, none⟩ : Explosion).apply_damage_one w = (w, none)) := by
  have hsqrt : floorSqrt 2500 = 50 := by
    unfold floorSqrt
    rw [show ⌊(2500 : ℚ)⌋ = 2500 by norm_num]
    rw [show ((2500 : ℤ).toNat) = 50 * 50 from rfl]
    exact Nat.sqrt_eq 50
  refine ⟨?_, ?_, fun e ws => rfl, ?_, ?_⟩
  · intro e w hd hin
    unfold Explosion.apply_damage_one
    rw [if_neg (by simp [hd]), if_pos hin]
  · intro e w hout
    unfold Explosion.apply_damage_one
    split_ifs with h1 h2
    · rfl
    · exact absurd h2 (not_le.mpr hout)
    · rfl
  · intro w hd hr hprot hhead hhp
    have hdist : Explosion.dist2 ⟨0, 0, 96, 70, none⟩ w = 2500 := by
      unfold Explosion.dist2
      rw [hhead]
      norm_num
    have hdmg : max EXPLOSION_MIN_DAMAGE
        ((70 : ℤ) - (floorSqrt (Explosion.dist2 ⟨0, 0, 96, 70, none⟩ w) : ℤ)) = 20 := by
      rw [hdist, hsqrt]
      decide
    have hcond : ¬(w.is_dead = true ∨ w.is_respawning = true ∨ 0 < w.spawn_protection) := by
      simp [hd, hr]
      exact hprot
    unfold Explosion.apply_damage_one
    rw [if_neg (by simp [hd]), if_pos (by rw [hdist]; norm_num)]
    dsimp only
    rw [hdmg]
    unfold Worm.take_damage
    rw [if_neg hcond]
    dsimp only
    split_ifs <;> constructor <;> first
      | rfl
      | (show max 0 (w.hp - 20) = w.hp - 20; omega)
  · intro w hhead
    unfold Explosion.apply_damage_one
    split_ifs with h1 h2
    · rfl
    · exfalso
      rw [show Explosion.dist2 ⟨0, 0, 96, 70, none⟩ w = 40000 by
        unfold Explosion.dist2; rw [hhead]; norm_num] at h2
      norm_num at h2
    · rfl

theorem C2_blast_damage_falloff_witness :
    ((⟨0, 0, 96, 70, none⟩ : Explosion).apply_damage_one (mkWorm 50 0)).1.hp = 80 ∧
      ((⟨0, 0, 96, 70, none⟩ : Explosion).apply_damage_one (mkWorm 50 0)).2 = some 20 := by
  have h := C2_blast_damage_falloff.2.2.2.1 (mkWorm 50 0) rfl rfl
    (by norm_num [mkWorm]) rfl (by norm_num [mkWorm])
  refine ⟨?_, h.2⟩
  rw [h.1]
  norm_num [mkWorm]

/-! ## Thrown-explosive fuse claims -/

theorem ThrownDynamite.phys_has_exploded (d : ThrownDynamite) (el dt : ℚ)
    (t : Terrain) : (d.phys el dt t).has_exploded = d.has_exploded := by
  unfold ThrownDynamite.phys
  dsimp only
  split_ifs <;> rfl

theorem ThrownDynamite.update_fst_has_exploded (d : ThrownDynamite) (el dt : ℚ)
    (t : Terrain) :
    ((d.update el dt t).1).has_exploded =
      (d.has_exploded || decide (DYNAMITE_FUSE_TIME ≤ el)) := by
  have hp := d.phys_has_exploded el dt t
  unfold ThrownDynamite.update
  dsimp only
  split_ifs with hB
  · simp [hB.1]
  · rw [hp]
    rw [hp] at hB
    by_cases hf : d.has_exploded = true
    · simp [hf]
    · simp only [Bool.not_eq_true] at hf
      have : ¬DYNAMITE_FUSE_TIME ≤ el := fun hle => hB ⟨hle, hf⟩
      simp [hf, this]

theorem ThrownDynamite.update_snd (d : ThrownDynamite) (el dt : ℚ) (t : Terrain) :
    (d.update el dt t).2 = (decide (DYNAMITE_FUSE_TIME ≤ el) && !d.has_exploded) := by
  have hp := d.phys_has_exploded el dt t
  unfold ThrownDynamite.update
  dsimp only
  split_ifs with hB
  · rw [hp] at hB
    simp [hB.1, hB.2]
  · rw [hp] at hB
    by_cases hf : d.has_exploded = true
    · simp [hf]
    · simp only [Bool.not_eq_true] at hf
      have : ¬DYNAMITE_FUSE_TIME ≤ el := fun hle => hB ⟨hle, hf⟩
      simp [hf, this]

/-- A thrown charge has exploded after `n` ticks iff some earlier tick ran
with elapsed time at or past the fuse. -/
theorem ThrownDynamite.run_has_exploded (e dts : ℕ → ℚ) (tr : ℕ → Terrain)
    (d0 : ThrownDynamite) (h0 : d0.has_exploded = false) (n : ℕ) :
    (ThrownDynamite.run e dts tr d0 n).has_exploded = true ↔
      ∃ m, m < n ∧ DYNAMITE_FUSE_TIME ≤ e m := by
  induction n with
  | zero => simp [ThrownDynamite.run, h0]
  | succ n ih =>
      rw [ThrownDynamite.run, ThrownDynamite.update_fst_has_exploded]
      simp only [Bool.or_eq_true, decide_eq_true_eq, ih]
      constructor
      · rintro (⟨m, hm, hfm⟩ | hfn)
        · exact ⟨m, by omega, hfm⟩
        · exact ⟨n, by omega, hfn⟩
      · rintro ⟨m, hm, hfm⟩
        rcases Nat.lt_succ_iff_lt_or_eq.mp hm with h | h
        · exact Or.inl ⟨m, h, hfm⟩
        · subst h
          exact Or.inr hfm

/-- C5: a thrown charge never signals its explosion on a tick with elapsed
time `< DYNAMITE_FUSE_TIME`; on the first tick with elapsed `≥` the fuse it
signals exactly once — regardless of the terrain it may or may not have hit —
and afterwards the exploded flag stays set and no tick ever signals again. -/
theorem C5_explosive_fuse (e dts : ℕ → ℚ) (tr : ℕ → Terrain) (d0 : ThrownDynamite)
    (h0 : d0.has_exploded = false) (n : ℕ) :
    (e n < DYNAMITE_FUSE_TIME → ThrownDynamite.signal e dts tr d0 n = false) ∧
    ((∀ m, m < n → e m < DYNAMITE_FUSE_TIME) → DYNAMITE_FUSE_TIME ≤ e n →
      ThrownDynamite.signal e dts tr d0 n = true ∧
      ∀ k, n < k →
        (ThrownDynamite.run e dts tr d0 k).has_exploded = true ∧
          ThrownDynamite.signal e dts tr d0 k = false) := by
  constructor
  · intro hlt
    unfold ThrownDynamite.signal
    rw [ThrownDynamite.update_snd]
    simp [not_le.mpr hlt]
  · intro hall hn
    have hflag : (ThrownDynamite.run e dts tr d0 n).has_exploded = false := by
      cases hb : (ThrownDynamite.run e dts tr d0 n).has_exploded
      · rfl
      · rcases (ThrownDynamite.run_has_exploded e dts tr d0 h0 n).mp hb with ⟨m, hm, hfm⟩
        exact absurd (hall m hm) (not_lt.mpr hfm)
    constructor
    · unfold ThrownDynamite.signal
      rw [ThrownDynamite.update_snd]
      simp [hn, hflag]
    · intro k hk
      have hkflag : (ThrownDynamite.run e dts tr d0 k).has_exploded = true :=
        (ThrownDynamite.run_has_exploded e dts tr d0 h0 k).mpr ⟨n, hk, hn⟩
      refine ⟨hkflag, ?_⟩
      unfold ThrownDynamite.signal
      rw [ThrownDynamite.update_snd]
      simp [hkflag]

theorem C5_explosive_fuse_witness :
    ThrownDynamite.signal (fun i => (i : ℚ)) (fun _ => 1 / 60) (fun _ => emptyTerrain)
      { x := 0, y := 0, vel_x := 0, vel_y := 0, has_exploded := false } 2 = true := by
  have h := (C5_explosive_fuse (fun i => (i : ℚ)) (fun _ => 1 / 60)
    (fun _ => emptyTerrain)
    { x := 0, y := 0, vel_x := 0, vel_y := 0, has_exploded := false } rfl 2).2
    (fun m hm => by
      rw [show DYNAMITE_FUSE_TIME = ((2 : ℕ) : ℚ) by norm_num [DYNAMITE_FUSE_TIME]]
      exact_mod_cast hm)
    (by norm_num [DYNAMITE_FUSE_TIME])
  exact h.1
